import Mathlib

/-! # Verification of the derived-analytics engine of the expense manager

Shallow embedding of the pure computations in `src/index.tsx`: totals,
category grouping, monthly grouping, dashboard statistics, budget
status/alert evaluation and the budget setter.  JavaScript numbers are
modelled as rationals, an ISO date string by the calendar fields that
`new Date(s)` exposes (assuming valid input and a fixed timezone), and an
insertion-ordered JavaScript object as an association list. -/

namespace ExpenseManager

/-- The `TransactionType` enum of src/index.tsx (values `'income'`/`'expense'`). -/
inductive TransactionType where
  | income
  | expense
deriving DecidableEq

/-- A category record of the static catalog (id, display name, color). -/
structure Category where
  id : String
  name : String
  color : String
deriving DecidableEq

/-- The `CATEGORIES.INCOME` table of src/index.tsx. -/
def CATEGORIES_INCOME : List Category :=
  [⟨"salary", "راتب", "#22c55e"⟩,
   ⟨"freelance", "عمل حر", "#4ade80"⟩,
   ⟨"investment", "استثمار", "#86efac"⟩,
   ⟨"other_income", "دخل آخر", "#bbf7d0"⟩]

/-- The `CATEGORIES.EXPENSE` table of src/index.tsx. -/
def CATEGORIES_EXPENSE : List Category :=
  [⟨"food", "طعام", "#ef4444"⟩,
   ⟨"housing", "سكن", "#f87171"⟩,
   ⟨"transport", "مواصلات", "#f97316"⟩,
   ⟨"entertainment", "ترفيه", "#facc15"⟩,
   ⟨"health", "صحة", "#3b82f6"⟩,
   ⟨"shopping", "تسوق", "#a855f7"⟩,
   ⟨"education", "تعليم", "#8b5cf6"⟩,
   ⟨"bills", "فواتير", "#6366f1"⟩,
   ⟨"debts", "ديون", "#ec4899"⟩,
   ⟨"investment_expense", "استثمارات", "#14b8a6"⟩,
   ⟨"leisure", "مصاريف ترفيهية", "#d97706"⟩,
   ⟨"other_expense", "مصاريف أخرى", "#6b7280"⟩]

/-- Calendar view of a JavaScript `Date`: `year` is `getFullYear()`,
`month` the 0-based `getMonth()`, `day` the day of month.  A transaction's
ISO date string is represented by the calendar fields `new Date(s)`
exposes; the ambient clock value `new Date()` is a value of this type. -/
structure JSDate where
  year : Nat
  month : Nat
  day : Nat
deriving DecidableEq

/-- The `Transaction` record of src/index.tsx. -/
structure Transaction where
  id : String
  type : TransactionType
  categoryId : String
  amount : ℚ
  date : JSDate
  description : String
  tags : List String := []
deriving DecidableEq

/-- The totals record `{income, expense, balance}`. -/
structure Totals where
  income : ℚ
  expense : ℚ
  balance : ℚ
deriving DecidableEq

/-- The reduce callback of `calculateTotals` (src/index.tsx 114-122):
add an INCOME amount to `income`, any other amount to `expense`, then
re-assign `balance = income - expense`. -/
def totalsStep (acc : Totals) (transaction : Transaction) : Totals :=
  let acc :=
    if transaction.type = TransactionType.income then
      { acc with income := acc.income + transaction.amount }
    else
      { acc with expense := acc.expense + transaction.amount }
  { acc with balance := acc.income - acc.expense }

/-- Embeds `calculateTotals` (src/index.tsx 112-125): reduce with `totalsStep`
starting from all zeroes. -/
def calculateTotals (transactions : List Transaction) : Totals :=
  transactions.foldl totalsStep { income := 0, expense := 0, balance := 0 }

/-- Embeds `getCategoryById` (src/index.tsx 127-130): first match over the
concatenation of both catalogs, `undefined` (`none`) when absent. -/
def getCategoryById (id : String) : Option Category :=
  (CATEGORIES_INCOME ++ CATEGORIES_EXPENSE).find? (fun cat => cat.id == id)

/-- Reads `o[k]` on an insertion-ordered JavaScript object (`undefined` ↦ `none`). -/
def objGet? (k : String) (o : List (String × β)) : Option β :=
  (o.find? (fun e => e.1 == k)).map (·.2)

/-- The object update pattern `if (!o[k]) o[k] = init; o[k] = f(o[k])`:
an existing key is updated in place, a new key is appended at the end
(JavaScript object insertion order). -/
def objUpsert (k : String) (init : β) (f : β → β) : List (String × β) → List (String × β)
  | [] => [(k, f init)]
  | e :: rest => if e.1 == k then (e.1, f e.2) :: rest else e :: objUpsert k init f rest

/-- Plain assignment `o[k] = v`. -/
def objSet (k : String) (v : β) : List (String × β) → List (String × β)
  | [] => [(k, v)]
  | e :: rest => if e.1 == k then (e.1, v) :: rest else e :: objSet k v rest

/-- Embeds `delete o[k]`. -/
def objDelete (k : String) (o : List (String × β)) : List (String × β) :=
  o.filter (fun e => !(e.1 == k))

/-- A per-category accumulator bucket `{total, color, count}` of
`groupExpensesByCategory`. -/
structure CatBucket where
  total : ℚ
  color : String
  count : Nat
deriving DecidableEq

/-- An output row `{name, value, color}` of `groupExpensesByCategory`. -/
structure CatRow where
  name : String
  value : ℚ
  color : String
deriving DecidableEq

/-- The reduce callback of `groupExpensesByCategory` (src/index.tsx
134-144): resolve the category, skip the transaction when it is unknown,
otherwise create-if-absent and update the name-keyed bucket. -/
def catStep (acc : List (String × CatBucket)) (expense : Transaction) :
    List (String × CatBucket) :=
  match getCategoryById expense.categoryId with
  | some category =>
      objUpsert category.name { total := 0, color := category.color, count := 0 }
        (fun b => { b with total := b.total + expense.amount, count := b.count + 1 }) acc
  | none => acc

/-- Embeds `groupExpensesByCategory` (src/index.tsx 132-151): filter to EXPENSE,
bucket by resolved category display name with `catStep`, then emit
`{name, value, color}` rows in bucket insertion order. -/
def groupExpensesByCategory (transactions : List Transaction) : List CatRow :=
  let expenses := transactions.filter (fun t => t.type == TransactionType.expense)
  let grouped := expenses.foldl catStep []
  grouped.map (fun e => { name := e.1, value := e.2.total, color := e.2.color })

/-- Decimal digits of `n`, most significant first, with explicit fuel
(mirroring the fuel of `Nat.toDigitsCore`, so it is kernel-reducible). -/
def decDigits : Nat → Nat → List Char
  | 0, _ => []
  | fuel + 1, n =>
    let d := Nat.digitChar (n % 10)
    if n / 10 = 0 then [d] else decDigits fuel (n / 10) ++ [d]

/-- The decimal numeral string of `n` (`latn` numbering-system output). -/
def decString (n : Nat) : String := ⟨decDigits (n + 1) n⟩

/-- The abbreviated month names of the `ar-EG` locale, indexed by the
0-based `getMonth()` value. -/
def arMonthNames : List String :=
  ["يناير", "فبراير", "مارس", "أبريل", "مايو", "يونيو",
   "يوليو", "أغسطس", "سبتمبر", "أكتوبر", "نوفمبر", "ديسمبر"]

/-- The grouping key of `groupTransactionsByMonth` (src/index.tsx 155):
`new Date(date).toLocaleString('ar-EG', { month: 'short', year: 'numeric',
numberingSystem: 'latn' })`, i.e. the ar-EG month name followed by the
year in latin digits. -/
def monthLabel (d : JSDate) : String :=
  arMonthNames.getD d.month "" ++ " " ++ decString d.year

/-- Modelled ECMAScript date parsing applied to an `ar-EG` month label:
such a string is in no format the `Date` constructor recognizes, so
`new Date(label).getTime()` evaluates to `NaN`, modelled as `none`. -/
def parseMonthLabelTime (_ : String) : Option ℚ := none

/-- JavaScript subtraction on possibly-NaN operands composed with the
ECMAScript `SortCompare` step, which maps a NaN comparator result to `+0`. -/
def jsNumSub (x y : Option ℚ) : ℚ :=
  match x, y with
  | some a, some b => a - b
  | _, _ => 0

/-- One insertion step of a stable sort: place `x` before the first `y`
with `c x y ≤ 0`. -/
def jsSortInsert (c : α → α → ℚ) (x : α) : List α → List α
  | [] => [x]
  | y :: ys => if c x y ≤ 0 then x :: y :: ys else y :: jsSortInsert c x ys

/-- Embeds `Array.prototype.sort` with comparator `c`: for a consistent
comparator, ES2019 requires the unique stable order, which this stable
insertion sort produces. -/
def jsSort (c : α → α → ℚ) : List α → List α
  | [] => []
  | x :: xs => jsSortInsert c x (jsSort c xs)

/-- A monthly series row; `income` is the `دخل` field and `expense` the
`مصروف` field of the source record. -/
structure MonthRow where
  name : String
  income : ℚ
  expense : ℚ
deriving DecidableEq

/-- The step of the `reduce` in `groupTransactionsByMonth`
(src/index.tsx 154-165). -/
def monthFoldStep (acc : List (String × MonthRow)) (t : Transaction) : List (String × MonthRow) :=
  let month := monthLabel t.date
  objUpsert month { name := month, income := 0, expense := 0 }
    (fun r =>
      if t.type = TransactionType.income then { r with income := r.income + t.amount }
      else { r with expense := r.expense + t.amount })
    acc

/-- Embeds `groupTransactionsByMonth` (src/index.tsx 153-168): bucket by the
locale month label, then `Object.values(...).sort((a, b) =>
new Date(b.name).getTime() - new Date(a.name).getTime())`. -/
def groupTransactionsByMonth (transactions : List Transaction) : List MonthRow :=
  let data := transactions.foldl monthFoldStep []
  jsSort
    (fun a b => jsNumSub (parseMonthLabelTime b.name) (parseMonthLabelTime a.name))
    (data.map (·.2))

/-- The dashboard statistics record. -/
structure DashboardStats where
  totalTransactions : Nat
  largestSpendingCategory : String
  highestIncome : ℚ
  monthlySavingsPercentage : ℚ
deriving DecidableEq

/-- Embeds `txDate.getMonth() === now.getMonth() && txDate.getFullYear() ===
now.getFullYear()`. -/
def sameCalendarMonth (d now : JSDate) : Bool :=
  d.month == now.month && d.year == now.year

/-- The reduce callback `acc[tx.categoryId] = (acc[tx.categoryId] || 0) +
tx.amount`, used both for `spendingByCategory` in `getDashboardStats`
(src/index.tsx 176-179) and for `expensesByCategory` in
`DashboardPage.budgetStatus` (src/index.tsx 439-442). -/
def spendStep (acc : List (String × ℚ)) (tx : Transaction) : List (String × ℚ) :=
  objUpsert tx.categoryId 0 (fun v => v + tx.amount) acc

/-- Embeds `getDashboardStats` (src/index.tsx 170-214).  The source obtains `now`
by calling `new Date()` internally; the model passes that ambient clock
value in explicitly as the `now` argument. -/
def getDashboardStats (transactions : List Transaction) (now : JSDate) : DashboardStats :=
  let totalTransactions := transactions.length
  let expenseTransactions := transactions.filter (fun tx => tx.type == TransactionType.expense)
  let largestSpendingCategory :=
    if expenseTransactions.length > 0 then
      let spendingByCategory := expenseTransactions.foldl spendStep []
      match (jsSort (fun a b => b.2 - a.2) spendingByCategory).head? with
      | some largestCategoryEntry =>
          match getCategoryById largestCategoryEntry.1 with
          | some category => category.name
          | none => "غير معروف"
      | none => "لا يوجد"
    else "لا يوجد"
  let incomeTransactions := transactions.filter (fun tx => tx.type == TransactionType.income)
  let highestIncome :=
    match incomeTransactions.map (·.amount) with
    | [] => 0
    | a :: rest => rest.foldl max a
  let currentMonthTransactions := transactions.filter (fun tx => sameCalendarMonth tx.date now)
  let monthlyTotals := calculateTotals currentMonthTransactions
  let monthlySavings := monthlyTotals.income - monthlyTotals.expense
  let monthlySavingsPercentage :=
    if monthlyTotals.income > 0 then monthlySavings / monthlyTotals.income * 100 else 0
  { totalTransactions, largestSpendingCategory, highestIncome, monthlySavingsPercentage }

/-- A budget status row of `DashboardPage.budgetStatus`. -/
structure BudgetStatusRow where
  categoryId : String
  categoryName : String
  budgetAmount : ℚ
  spentAmount : ℚ
  percentage : ℚ
  remaining : ℚ
  color : String
deriving DecidableEq

/-- The current-month per-category expense sums computed at the top of
`DashboardPage.budgetStatus` (src/index.tsx 430-442). -/
def monthSpending (transactions : List Transaction) (now : JSDate) : List (String × ℚ) :=
  let currentMonthExpenses := transactions.filter
    (fun tx => tx.type == TransactionType.expense && sameCalendarMonth tx.date now)
  currentMonthExpenses.foldl spendStep []

/-- The status record built for one budget entry (the `map` body of
`DashboardPage.budgetStatus`, src/index.tsx 445-455). -/
def budgetRowOf (expensesByCategory : List (String × ℚ)) (categoryId : String)
    (budgetAmount : ℚ) : BudgetStatusRow :=
  let category := getCategoryById categoryId
  let spentAmount := (objGet? categoryId expensesByCategory).getD 0
  { categoryId := categoryId
    categoryName := (category.map (·.name)).getD "غير معروف"
    budgetAmount := budgetAmount
    spentAmount := spentAmount
    percentage := spentAmount / budgetAmount * 100
    remaining := budgetAmount - spentAmount
    color := (category.map (·.color)).getD "#ccc" }

/-- Embeds `DashboardPage.budgetStatus` (src/index.tsx 429-458): one row per
budget entry, where `!budgetAmount || budgetAmount <= 0` drops the entry
(over ℚ this is exactly `budgetAmount ≤ 0`), sorted by percentage
descending. -/
def budgetStatus (transactions : List Transaction) (budgets : List (String × ℚ))
    (now : JSDate) : List BudgetStatusRow :=
  let expensesByCategory := monthSpending transactions now
  jsSort (fun a b => b.percentage - a.percentage)
    (budgets.filterMap
      (fun b => if b.2 ≤ 0 then none else some (budgetRowOf expensesByCategory b.1 b.2)))

/-- Embeds `DashboardPage.budgetAlerts` (src/index.tsx 460): statuses with
percentage ≥ 80, sorted by percentage descending. -/
def budgetAlerts (transactions : List Transaction) (budgets : List (String × ℚ))
    (now : JSDate) : List BudgetStatusRow :=
  jsSort (fun a b => b.percentage - a.percentage)
    ((budgetStatus transactions budgets now).filter (fun s => decide (80 ≤ s.percentage)))

/-- Embeds `setBudget` (src/index.tsx 858-866): a negative amount returns early
(no-op), zero deletes the key, a positive amount assigns it. -/
def setBudget (budgets : List (String × ℚ)) (categoryId : String) (amount : ℚ) :
    List (String × ℚ) :=
  if amount < 0 then budgets
  else if amount = 0 then objDelete categoryId budgets
  else objSet categoryId amount budgets

/-- The value of the bucket named `n` in `groupExpensesByCategory`
(0 when the bucket is absent). -/
def catValueAt (n : String) (transactions : List Transaction) : ℚ :=
  (((groupExpensesByCategory transactions).find? (fun r => r.name == n)).map (·.value)).getD 0

/-- The monthly-series row keyed `k` produced by `groupTransactionsByMonth`. -/
def monthRowAt (k : String) (transactions : List Transaction) : Option MonthRow :=
  (groupTransactionsByMonth transactions).find? (fun r => r.name == k)

/-- Specification-side sum: total INCOME amount of the transactions whose
month label is `k`. -/
def monthIncomeSum (k : String) (l : List Transaction) : ℚ :=
  ((l.filter (fun t => monthLabel t.date == k && t.type == TransactionType.income)).map
    (·.amount)).sum

/-- Specification-side sum: total non-INCOME amount of the transactions
whose month label is `k`. -/
def monthExpenseSum (k : String) (l : List Transaction) : ℚ :=
  ((l.filter (fun t => monthLabel t.date == k && !(t.type == TransactionType.income))).map
    (·.amount)).sum

/-- The numeric value of a decimal digit character. -/
def digitVal (c : Char) : Nat := c.toNat - 48

/-- The number denoted by a big-endian list of decimal digit characters. -/
def val10 (l : List Char) : Nat := l.foldl (fun a c => a * 10 + digitVal c) 0

/-- An income of 100 dated March 2024 (month index 2). -/
def txIncomeMar : Transaction :=
  { id := "1", type := .income, categoryId := "salary", amount := 100,
    date := ⟨2024, 2, 15⟩, description := "" }

/-- An income of 50 dated January 2024. -/
def txIncomeJan : Transaction :=
  { id := "2", type := .income, categoryId := "salary", amount := 50,
    date := ⟨2024, 0, 15⟩, description := "" }

/-- An expense of 30 dated February 2024. -/
def txExpenseFeb : Transaction :=
  { id := "3", type := .expense, categoryId := "food", amount := 30,
    date := ⟨2024, 1, 15⟩, description := "" }

/-- A food expense of 800 dated March 2024. -/
def txFood800 : Transaction :=
  { id := "4", type := .expense, categoryId := "food", amount := 800,
    date := ⟨2024, 2, 5⟩, description := "" }

/-- A food expense of 5 dated March 2024. -/
def txFood5 : Transaction :=
  { id := "5", type := .expense, categoryId := "food", amount := 5,
    date := ⟨2024, 2, 5⟩, description := "" }

/-- A housing expense of 5 dated March 2024. -/
def txHousing5 : Transaction :=
  { id := "6", type := .expense, categoryId := "housing", amount := 5,
    date := ⟨2024, 2, 6⟩, description := "" }

/-- An ambient clock value inside March 2024. -/
def nowMar2024 : JSDate := ⟨2024, 2, 20⟩

/-- An ambient clock value inside April 2024. -/
def nowApr2024 : JSDate := ⟨2024, 3, 20⟩

/-! ## Association-list object lemmas -/

theorem objGet?_objUpsert_self (k : String) (init : β) (f : β → β)
    (o : List (String × β)) :
    objGet? k (objUpsert k init f o) = some (f ((objGet? k o).getD init)) := by
  induction o with
  | nil => simp [objGet?, objUpsert]
  | cons e rest ih =>
    by_cases h : e.1 = k
    · simp [objGet?, objUpsert, h]
    · simpa [objGet?, objUpsert, h] using ih

theorem objGet?_objUpsert_ne (k k' : String) (init : β) (f : β → β)
    (o : List (String × β)) (h : k' ≠ k) :
    objGet? k' (objUpsert k init f o) = objGet? k' o := by
  induction o with
  | nil => simp [objGet?, objUpsert, Ne.symm h]
  | cons e rest ih =>
    by_cases he : e.1 = k
    · simp [objGet?, objUpsert, he, Ne.symm h]
    · by_cases he' : e.1 = k'
      · simp [objGet?, objUpsert, he, he', h]
      · simpa [objGet?, objUpsert, he, he'] using ih

theorem objGet?_objSet_self (k : String) (v : β) (o : List (String × β)) :
    objGet? k (objSet k v o) = some v := by
  induction o with
  | nil => simp [objGet?, objSet]
  | cons e rest ih =>
    by_cases h : e.1 = k
    · simp [objGet?, objSet, h]
    · simpa [objGet?, objSet, h] using ih

theorem objGet?_objSet_ne (k k' : String) (v : β) (o : List (String × β))
    (h : k' ≠ k) :
    objGet? k' (objSet k v o) = objGet? k' o := by
  induction o with
  | nil => simp [objGet?, objSet, Ne.symm h]
  | cons e rest ih =>
    by_cases he : e.1 = k
    · simp [objGet?, objSet, he, Ne.symm h]
    · by_cases he' : e.1 = k'
      · simp [objGet?, objSet, he, he', h]
      · simpa [objGet?, objSet, he, he'] using ih

theorem objGet?_objDelete_self (k : String) (o : List (String × β)) :
    objGet? k (objDelete k o) = none := by
  induction o with
  | nil => simp [objGet?, objDelete]
  | cons e rest ih =>
    by_cases h : e.1 = k
    · simp [objGet?, objDelete, h, ih]
    · simp [objGet?, objDelete, h, ih]

theorem objGet?_objDelete_ne (k k' : String) (o : List (String × β)) (h : k' ≠ k) :
    objGet? k' (objDelete k o) = objGet? k' o := by
  induction o with
  | nil => simp [objGet?, objDelete]
  | cons e rest ih =>
    by_cases he : e.1 = k
    · simpa [objGet?, objDelete, he, Ne.symm h] using ih
    · by_cases he' : e.1 = k'
      · simp [objGet?, objDelete, he, he', h]
      · simpa [objGet?, objDelete, he, he'] using ih

/-! ## Stable-sort lemmas -/

theorem jsSortInsert_perm (c : α → α → ℚ) (x : α) (l : List α) :
    (jsSortInsert c x l).Perm (x :: l) := by
  induction l with
  | nil => simp [jsSortInsert]
  | cons y ys ih =>
    by_cases h : c x y ≤ 0
    · simp [jsSortInsert, h]
    · simp only [jsSortInsert, if_neg h]
      exact (ih.cons y).trans (List.Perm.swap x y ys)

theorem jsSort_perm (c : α → α → ℚ) (l : List α) : (jsSort c l).Perm l := by
  induction l with
  | nil => simp [jsSort]
  | cons x xs ih => exact (jsSortInsert_perm c x (jsSort c xs)).trans (ih.cons x)

theorem jsSortInsert_pairwise (c : α → α → ℚ)
    (htot : ∀ a b, c a b ≤ 0 ∨ c b a ≤ 0)
    (htrans : ∀ a b d, c a b ≤ 0 → c b d ≤ 0 → c a d ≤ 0)
    (x : α) (l : List α) (hl : l.Pairwise (fun a b => c a b ≤ 0)) :
    (jsSortInsert c x l).Pairwise (fun a b => c a b ≤ 0) := by
  induction l with
  | nil => simp [jsSortInsert]
  | cons y ys ih =>
    rcases List.pairwise_cons.1 hl with ⟨hy, hys⟩
    by_cases h : c x y ≤ 0
    · simp only [jsSortInsert, if_pos h]
      refine List.pairwise_cons.2 ⟨?_, hl⟩
      intro z hz
      rcases List.mem_cons.1 hz with rfl | hz
      · exact h
      · exact htrans x y z h (hy z hz)
    · have hyx : c y x ≤ 0 := (htot x y).resolve_left h
      simp only [jsSortInsert, if_neg h]
      refine List.pairwise_cons.2 ⟨?_, ih hys⟩
      intro z hz
      have := (jsSortInsert_perm c x ys).mem_iff.1 hz
      rcases List.mem_cons.1 this with rfl | hz'
      · exact hyx
      · exact hy z hz'

theorem jsSort_pairwise (c : α → α → ℚ)
    (htot : ∀ a b, c a b ≤ 0 ∨ c b a ≤ 0)
    (htrans : ∀ a b d, c a b ≤ 0 → c b d ≤ 0 → c a d ≤ 0)
    (l : List α) :
    (jsSort c l).Pairwise (fun a b => c a b ≤ 0) := by
  induction l with
  | nil => simp [jsSort]
  | cons x xs ih => exact jsSortInsert_pairwise c htot htrans x (jsSort c xs) ih

theorem jsSort_of_const_zero (c : α → α → ℚ) (h : ∀ a b, c a b = 0)
    (l : List α) : jsSort c l = l := by
  induction l with
  | nil => rfl
  | cons x xs ih =>
    have : jsSortInsert c x (jsSort c xs) = x :: jsSort c xs := by
      cases hxs : jsSort c xs with
      | nil => rfl
      | cons y ys => simp [jsSortInsert, h x y]
    rw [jsSort, this, ih]

/-! ## List sum helpers -/

theorem sum_map_filter_split (p : α → Bool) (f : α → ℚ) (l : List α) :
    ((l.filter p).map f).sum + ((l.filter (fun a => !p a)).map f).sum
      = (l.map f).sum := by
  induction l with
  | nil => simp
  | cons x xs ih =>
    by_cases h : p x
    · simp only [List.filter_cons, h]
      simp only [Bool.not_true, if_true]
      simp [← ih]
      ring
    · simp only [List.filter_cons]
      simp [h, ← ih]
      ring

/-! ## Characterization of `calculateTotals` -/

theorem foldl_totalsStep_eq (txs : List Transaction) (acc : Totals)
    (h : acc.balance = acc.income - acc.expense) :
    txs.foldl totalsStep acc =
      { income := acc.income +
          ((txs.filter (fun t => t.type == TransactionType.income)).map (·.amount)).sum,
        expense := acc.expense +
          ((txs.filter (fun t => !(t.type == TransactionType.income))).map (·.amount)).sum,
        balance :=
          (acc.income +
            ((txs.filter (fun t => t.type == TransactionType.income)).map (·.amount)).sum) -
          (acc.expense +
            ((txs.filter (fun t => !(t.type == TransactionType.income))).map (·.amount)).sum) } := by
  induction txs generalizing acc with
  | nil =>
    cases acc with
    | mk i e b => simp at h; simp [h]
  | cons t l ih =>
    cases ht : t.type with
    | income =>
      simp only [List.foldl_cons, List.filter_cons, ht]
      rw [ih (totalsStep acc t) (by simp [totalsStep, ht])]
      simp [totalsStep, ht]
      ring
    | expense =>
      simp only [List.foldl_cons, List.filter_cons, ht]
      rw [ih (totalsStep acc t) (by simp [totalsStep, ht])]
      simp [totalsStep, ht]
      ring

theorem calculateTotals_eq (txs : List Transaction) :
    calculateTotals txs =
      { income := ((txs.filter (fun t => t.type == TransactionType.income)).map (·.amount)).sum,
        expense := ((txs.filter (fun t => !(t.type == TransactionType.income))).map (·.amount)).sum,
        balance :=
          ((txs.filter (fun t => t.type == TransactionType.income)).map (·.amount)).sum -
          ((txs.filter (fun t => !(t.type == TransactionType.income))).map (·.amount)).sum } := by
  have := foldl_totalsStep_eq txs { income := 0, expense := 0, balance := 0 } (by simp)
  simpa [calculateTotals] using this

theorem not_income_eq_expense (t : Transaction) :
    (!(t.type == TransactionType.income)) = (t.type == TransactionType.expense) := by
  cases t.type <;> rfl

/-! ## Characterization of the per-category spending fold -/

theorem spendFold_get (l : List Transaction) (acc : List (String × ℚ)) (c : String) :
    (objGet? c (l.foldl spendStep acc)).getD 0
      = (objGet? c acc).getD 0
        + ((l.filter (fun tx => tx.categoryId == c)).map (·.amount)).sum := by
  induction l generalizing acc with
  | nil => simp
  | cons tx l ih =>
    simp only [List.foldl_cons, List.filter_cons]
    by_cases h : tx.categoryId = c
    · rw [ih]
      subst h
      rw [spendStep, objGet?_objUpsert_self]
      simp
      ring
    · rw [ih]
      rw [spendStep, objGet?_objUpsert_ne _ _ _ _ _ (Ne.symm h)]
      simp [h]

/-! ## Characterization of the category-grouping fold -/

theorem sum_total_objUpsert (k color : String) (a : ℚ) (o : List (String × CatBucket)) :
    ((objUpsert k { total := 0, color := color, count := 0 }
        (fun b => { b with total := b.total + a, count := b.count + 1 }) o).map
      (fun e => e.2.total)).sum = (o.map (fun e => e.2.total)).sum + a := by
  induction o with
  | nil => simp [objUpsert]
  | cons e rest ih =>
    by_cases h : e.1 = k
    · simp [objUpsert, h]
      ring
    · simp [objUpsert, h, ih]
      ring

theorem catFold_sum (l : List Transaction) (acc : List (String × CatBucket)) :
    ((l.foldl catStep acc).map (fun e => e.2.total)).sum
      = (acc.map (fun e => e.2.total)).sum
        + ((l.filter (fun t => (getCategoryById t.categoryId).isSome)).map (·.amount)).sum := by
  induction l generalizing acc with
  | nil => simp
  | cons t l ih =>
    simp only [List.foldl_cons, List.filter_cons]
    cases hc : getCategoryById t.categoryId with
    | none => simp [catStep, hc, ih]
    | some category =>
      rw [ih]
      simp [catStep, hc, sum_total_objUpsert]
      ring

theorem catFold_total_at (l : List Transaction) (acc : List (String × CatBucket))
    (n : String) :
    ((objGet? n (l.foldl catStep acc)).map (fun b => b.total)).getD 0
      = ((objGet? n acc).map (fun b => b.total)).getD 0
        + ((l.filter (fun t =>
            (getCategoryById t.categoryId).map (fun c => c.name) == some n)).map
          (·.amount)).sum := by
  induction l generalizing acc with
  | nil => simp
  | cons t l ih =>
    simp only [List.foldl_cons, List.filter_cons]
    cases hc : getCategoryById t.categoryId with
    | none => simp [catStep, hc, ih]
    | some category =>
      by_cases hn : category.name = n
      · rw [ih]
        rw [catStep, hc]
        subst hn
        rw [objGet?_objUpsert_self]
        cases ho : objGet? category.name acc <;> (simp [ho]; try ring)
      · rw [ih]
        rw [catStep, hc, objGet?_objUpsert_ne _ _ _ _ _ (Ne.symm hn)]
        simp [hn]

/-! ## Characterization of the month-grouping fold -/

theorem objGet?_cons (k : String) (e : String × β) (o : List (String × β)) :
    objGet? k (e :: o) = if e.1 == k then some e.2 else objGet? k o := by
  by_cases h : e.1 = k <;> simp [objGet?, h]

theorem groupTransactionsByMonth_eq (transactions : List Transaction) :
    groupTransactionsByMonth transactions
      = (transactions.foldl monthFoldStep []).map (·.2) := by
  unfold groupTransactionsByMonth
  exact jsSort_of_const_zero _ (fun a b => rfl) _

theorem monthFoldStep_coherent (acc : List (String × MonthRow)) (t : Transaction)
    (h : ∀ e ∈ acc, e.2.name = e.1) :
    ∀ e ∈ monthFoldStep acc t, e.2.name = e.1 := by
  unfold monthFoldStep
  generalize monthLabel t.date = k
  induction acc with
  | nil =>
    intro e he
    simp only [objUpsert, List.mem_singleton] at he
    subst he
    cases ht : t.type <;> simp [ht]
  | cons e' rest ih =>
    intro e he
    by_cases hk : e'.1 = k
    · simp only [objUpsert, hk, beq_self_eq_true, if_true] at he
      rcases List.mem_cons.1 he with rfl | hmem
      · have := h e' (List.mem_cons_self e' rest)
        cases ht : t.type <;> simp [ht, this, hk]
      · exact h e (List.mem_cons_of_mem e' hmem)
    · simp only [objUpsert, hk] at he
      simp only [beq_iff_eq, hk, if_false] at he
      rcases List.mem_cons.1 he with rfl | hmem
      · exact h e (List.mem_cons_self e rest)
      · exact ih (fun x hx => h x (List.mem_cons_of_mem e' hx)) e hmem

theorem monthFold_coherent (l : List Transaction) (acc : List (String × MonthRow))
    (h : ∀ e ∈ acc, e.2.name = e.1) :
    ∀ e ∈ l.foldl monthFoldStep acc, e.2.name = e.1 := by
  induction l generalizing acc with
  | nil => exact h
  | cons t l ih => exact ih (monthFoldStep acc t) (monthFoldStep_coherent acc t h)

theorem find?_map_snd_eq_objGet? (l : List (String × MonthRow)) (k : String)
    (hco : ∀ e ∈ l, e.2.name = e.1) :
    (l.map (·.2)).find? (fun r => r.name == k) = objGet? k l := by
  induction l with
  | nil => rfl
  | cons e rest ih =>
    have hname : e.2.name = e.1 := hco e (List.mem_cons_self e rest)
    rw [List.map_cons, objGet?_cons]
    by_cases h : e.1 = k
    · simp [List.find?_cons, hname, h]
    · have hbeq : (e.1 == k) = false := by simp [h]
      simp only [List.find?_cons, hname, hbeq, cond_false, if_false, Bool.false_eq_true]
      exact ih (fun x hx => hco x (List.mem_cons_of_mem e hx))

theorem monthFold_get (l : List Transaction) (acc : List (String × MonthRow)) (k : String) :
    objGet? k (l.foldl monthFoldStep acc)
      = if (objGet? k acc).isSome || l.any (fun t => monthLabel t.date == k) then
          some { name := ((objGet? k acc).getD { name := k, income := 0, expense := 0 }).name,
                 income := ((objGet? k acc).getD { name := k, income := 0, expense := 0 }).income
                   + monthIncomeSum k l,
                 expense := ((objGet? k acc).getD { name := k, income := 0, expense := 0 }).expense
                   + monthExpenseSum k l }
        else none := by
  induction l generalizing acc with
  | nil =>
    cases hr : objGet? k acc with
    | none => simp [hr, monthIncomeSum, monthExpenseSum]
    | some r => simp [hr, monthIncomeSum, monthExpenseSum]
  | cons t l ih =>
    simp only [List.foldl_cons, List.any_cons]
    by_cases hk : monthLabel t.date = k
    · rw [ih]
      have hup : objGet? k (monthFoldStep acc t)
          = some (if t.type = TransactionType.income then
              { (objGet? k acc).getD { name := k, income := 0, expense := 0 } with
                income := ((objGet? k acc).getD { name := k, income := 0, expense := 0 }).income
                  + t.amount }
            else
              { (objGet? k acc).getD { name := k, income := 0, expense := 0 } with
                expense := ((objGet? k acc).getD { name := k, income := 0, expense := 0 }).expense
                  + t.amount }) := by
        rw [monthFoldStep, hk, objGet?_objUpsert_self]
      rw [hup]
      cases ht : t.type with
      | income =>
        simp [hk, ht, monthIncomeSum, monthExpenseSum, List.filter_cons]
        try ring
      | expense =>
        simp [hk, ht, monthIncomeSum, monthExpenseSum, List.filter_cons]
        try ring
    · rw [ih]
      have hg : objGet? k (monthFoldStep acc t) = objGet? k acc := by
        rw [monthFoldStep, objGet?_objUpsert_ne _ _ _ _ _ (Ne.symm hk)]
      rw [hg]
      have h1 : monthIncomeSum k (t :: l) = monthIncomeSum k l := by
        simp [monthIncomeSum, List.filter_cons, hk]
      have h2 : monthExpenseSum k (t :: l) = monthExpenseSum k l := by
        simp [monthExpenseSum, List.filter_cons, hk]
      simp [hk, h1, h2]

/-! ## Injectivity of the month grouping key -/

theorem digitVal_digitChar (m : Nat) (h : m < 10) :
    digitVal (Nat.digitChar m) = m := by
  interval_cases m <;> rfl

theorem digitChar_ne_space (m : Nat) (h : m < 10) :
    Nat.digitChar m ≠ ' ' := by
  interval_cases m <;> decide

theorem val10_append_singleton (l : List Char) (d : Char) :
    val10 (l ++ [d]) = val10 l * 10 + digitVal d := by
  simp [val10, List.foldl_append]

theorem val10_decDigits (fuel : Nat) :
    ∀ n, n < 10 ^ fuel → val10 (decDigits fuel n) = n := by
  induction fuel with
  | zero =>
    intro n h
    simp only [pow_zero, Nat.lt_one_iff] at h
    simp [h, decDigits, val10]
  | succ fuel ih =>
    intro n h
    by_cases h0 : n / 10 = 0
    · have hn : n < 10 := by omega
      simp only [decDigits, h0, if_true]
      simp [val10, digitVal_digitChar (n % 10) (by omega)]
      omega
    · simp only [decDigits, h0, if_false]
      have hdiv : n / 10 < 10 ^ fuel := by
        refine (Nat.div_lt_iff_lt_mul (by norm_num)).2 ?_
        calc n < 10 ^ (fuel + 1) := h
        _ = 10 ^ fuel * 10 := by rw [pow_succ]
      rw [val10_append_singleton, ih (n / 10) hdiv,
        digitVal_digitChar (n % 10) (by omega)]
      omega

theorem decString_inj (n m : Nat) (h : decString n = decString m) : n = m := by
  have hd : decDigits (n + 1) n = decDigits (m + 1) m := congrArg String.data h
  have hbound : ∀ j : Nat, j < 10 ^ (j + 1) := fun j =>
    lt_of_lt_of_le (Nat.lt_pow_self (by norm_num) j)
      (Nat.pow_le_pow_right (by norm_num) j.le_succ)
  calc n = val10 (decDigits (n + 1) n) := (val10_decDigits (n + 1) n (hbound n)).symm
  _ = val10 (decDigits (m + 1) m) := by rw [hd]
  _ = m := val10_decDigits (m + 1) m (hbound m)

theorem decDigits_space_free (fuel : Nat) : ∀ n, ' ' ∉ decDigits fuel n := by
  induction fuel with
  | zero => intro n; simp [decDigits]
  | succ fuel ih =>
    intro n
    by_cases h0 : n / 10 = 0
    · simp only [decDigits, h0, if_true]
      intro hmem
      exact digitChar_ne_space (n % 10) (by omega) (List.mem_singleton.1 hmem).symm
    · simp only [decDigits, h0, if_false]
      intro hmem
      rcases List.mem_append.1 hmem with h | h
      · exact ih (n / 10) h
      · exact digitChar_ne_space (n % 10) (by omega) (List.mem_singleton.1 h).symm

theorem arMonthNames_space_free :
    ∀ m, m < 12 → ' ' ∉ (arMonthNames.getD m "").data := by decide

theorem arMonthNames_inj :
    ∀ m1, m1 < 12 → ∀ m2, m2 < 12 →
      arMonthNames.getD m1 "" = arMonthNames.getD m2 "" → m1 = m2 := by decide

theorem append_space_inj (a : List Char) :
    ∀ b s t : List Char, ' ' ∉ a → ' ' ∉ b →
      a ++ ' ' :: s = b ++ ' ' :: t → a = b ∧ s = t := by
  induction a with
  | nil =>
    intro b s t _ hb h
    cases b with
    | nil => simpa using h
    | cons c bs =>
      rw [List.nil_append, List.cons_append, List.cons.injEq] at h
      exact absurd (h.1 ▸ List.mem_cons_self c bs) hb
  | cons x xs ih =>
    intro b s t ha hb h
    cases b with
    | nil =>
      rw [List.cons_append, List.nil_append, List.cons.injEq] at h
      exact absurd (h.1.symm ▸ List.mem_cons_self x xs) ha
    | cons y bs =>
      rw [List.cons_append, List.cons_append, List.cons.injEq] at h
      obtain ⟨rfl, htail⟩ := h
      have := ih bs s t (fun hm => ha (List.mem_cons_of_mem x hm))
        (fun hm => hb (List.mem_cons_of_mem _ hm)) htail
      exact ⟨by rw [this.1], this.2⟩

theorem monthLabel_inj (d1 d2 : JSDate) (h1 : d1.month < 12) (h2 : d2.month < 12)
    (h : monthLabel d1 = monthLabel d2) : d1.month = d2.month ∧ d1.year = d2.year := by
  have hdata : (arMonthNames.getD d1.month "").data ++ ' ' :: (decString d1.year).data
      = (arMonthNames.getD d2.month "").data ++ ' ' :: (decString d2.year).data := by
    have hd := congrArg String.data h
    simpa [monthLabel, String.data_append] using hd
  obtain ⟨hname, hyear⟩ := append_space_inj _ _ _ _
    (arMonthNames_space_free d1.month h1) (arMonthNames_space_free d2.month h2) hdata
  exact ⟨arMonthNames_inj d1.month h1 d2.month h2 (String.ext hname),
    decString_inj d1.year d2.year (String.ext hyear)⟩


/-! ## Claim theorems -/

/-- C1: for every transaction collection, `calculateTotals` returns income
equal to the sum of INCOME amounts, expense equal to the sum of EXPENSE
amounts, and balance exactly `income - expense`; the empty collection
yields all-zero totals. -/
theorem calculateTotals_spec :
    (∀ transactions : List Transaction,
        (calculateTotals transactions).income =
          ((transactions.filter (fun t => t.type == TransactionType.income)).map (·.amount)).sum
        ∧ (calculateTotals transactions).expense =
          ((transactions.filter (fun t => t.type == TransactionType.expense)).map (·.amount)).sum
        ∧ (calculateTotals transactions).balance =
          (calculateTotals transactions).income - (calculateTotals transactions).expense)
    ∧ calculateTotals [] = { income := 0, expense := 0, balance := 0 } := by
  constructor
  · intro txs
    have hfe : txs.filter (fun t => !(t.type == TransactionType.income))
        = txs.filter (fun t => t.type == TransactionType.expense) :=
      List.filter_congr (fun t _ => not_income_eq_expense t)
    rw [calculateTotals_eq, hfe]
    exact ⟨rfl, rfl, rfl⟩
  · rfl

/-- C3: the grouping key of `groupTransactionsByMonth` is a function of the
transaction date alone, and two dates (with in-range `getMonth()` values)
share a key exactly when they lie in the same calendar month and year. -/
theorem monthKey_same_bucket_iff (d1 d2 : JSDate)
    (h1 : d1.month < 12) (h2 : d2.month < 12) :
    monthLabel d1 = monthLabel d2 ↔ (d1.month = d2.month ∧ d1.year = d2.year) := by
  constructor
  · exact monthLabel_inj d1 d2 h1 h2
  · rintro ⟨hm, hy⟩
    rw [monthLabel, monthLabel, hm, hy]

/-- Witness for C3 at concrete dates: March 2024 vs March 2023. -/
theorem monthKey_same_bucket_iff_witness :
    monthLabel ⟨2024, 2, 10⟩ = monthLabel ⟨2023, 2, 28⟩ ↔
      ((⟨2024, 2, 10⟩ : JSDate).month = (⟨2023, 2, 28⟩ : JSDate).month ∧
       (⟨2024, 2, 10⟩ : JSDate).year = (⟨2023, 2, 28⟩ : JSDate).year) :=
  monthKey_same_bucket_iff ⟨2024, 2, 10⟩ ⟨2023, 2, 28⟩ (by decide) (by decide)

/-- C6: summing the `value` fields of `groupExpensesByCategory` gives the
expense total of `calculateTotals` minus the amounts of the EXPENSE
transactions whose `categoryId` does not resolve in the catalog. -/
theorem groupExpensesByCategory_sum_spec (transactions : List Transaction) :
    ((groupExpensesByCategory transactions).map (·.value)).sum
      = (calculateTotals transactions).expense
        - ((transactions.filter (fun t =>
            t.type == TransactionType.expense
              && (getCategoryById t.categoryId).isNone)).map (·.amount)).sum := by
  have hmain : ((groupExpensesByCategory transactions).map (·.value)).sum
      = (((transactions.filter (fun t => t.type == TransactionType.expense)).filter
          (fun t => (getCategoryById t.categoryId).isSome)).map (·.amount)).sum := by
    unfold groupExpensesByCategory
    rw [List.map_map]
    simpa using catFold_sum (transactions.filter (fun t => t.type == TransactionType.expense)) []
  have hexp : (calculateTotals transactions).expense
      = ((transactions.filter (fun t => t.type == TransactionType.expense)).map (·.amount)).sum := by
    rw [calculateTotals_eq]
    exact congrArg _ (congrArg _
      (List.filter_congr (fun t _ => not_income_eq_expense t)))
  have hff : transactions.filter (fun t =>
        t.type == TransactionType.expense && (getCategoryById t.categoryId).isNone)
      = (transactions.filter (fun t => t.type == TransactionType.expense)).filter
          (fun t => !((getCategoryById t.categoryId).isSome)) := by
    rw [List.filter_filter]
    exact List.filter_congr (fun t _ => by
      cases hgc : getCategoryById t.categoryId <;> simp [hgc, Bool.and_comm])
  have hsplit := sum_map_filter_split (fun t => (getCategoryById t.categoryId).isSome)
    (·.amount) (transactions.filter (fun t => t.type == TransactionType.expense))
  rw [hmain, hexp, hff]
  linarith [hsplit]

/-- C7: the current-month savings percentage is 0 when the current month
has zero income, and otherwise equals `((income - expense) / income) * 100`
over the current-month subset, with negative values preserved. -/
theorem dashboard_savings_percentage (transactions : List Transaction) (now : JSDate)
    (h : ∀ t ∈ transactions, 0 ≤ t.amount) :
    (getDashboardStats transactions now).monthlySavingsPercentage =
      (if (calculateTotals
            (transactions.filter (fun tx => sameCalendarMonth tx.date now))).income = 0
       then 0
       else ((calculateTotals
              (transactions.filter (fun tx => sameCalendarMonth tx.date now))).income
            - (calculateTotals
              (transactions.filter (fun tx => sameCalendarMonth tx.date now))).expense)
          / (calculateTotals
              (transactions.filter (fun tx => sameCalendarMonth tx.date now))).income
          * 100) := by
  have hnn : 0 ≤ (calculateTotals
      (transactions.filter (fun tx => sameCalendarMonth tx.date now))).income := by
    rw [calculateTotals_eq]
    refine List.sum_nonneg ?_
    intro x hx
    obtain ⟨t, ht, rfl⟩ := List.mem_map.1 hx
    exact h t (List.mem_filter.1 (List.mem_filter.1 ht).1).1
  simp only [getDashboardStats]
  rcases eq_or_lt_of_le hnn with heq | hlt
  · simp [← heq]
  · rw [if_pos hlt, if_neg (ne_of_gt hlt)]

/-- Witness for C7: a month containing only an expense transaction yields a
savings percentage of exactly 0. -/
theorem dashboard_savings_percentage_witness :
    (∀ t ∈ [txFood800], 0 ≤ t.amount) ∧
      (getDashboardStats [txFood800] nowMar2024).monthlySavingsPercentage = 0 := by
  refine ⟨by decide, ?_⟩
  rw [dashboard_savings_percentage [txFood800] nowMar2024 (by decide)]
  simp [txFood800, nowMar2024, sameCalendarMonth, calculateTotals, totalsStep]


/-- C2 (evaluation at the failing input): transactions dated March, January
and February 2024, inserted in that order, produce a monthly series in
insertion order (March, January, February), not descending calendar order
(March, February, January).  The sort comparator feeds the Arabic locale
month label back into the `Date` constructor, which cannot parse it, so
every comparison is `NaN`, `SortCompare` maps it to `+0`, and the stable
sort leaves the bucket insertion order untouched. -/
theorem groupTransactionsByMonth_order_bug :
    (groupTransactionsByMonth [txIncomeMar, txIncomeJan, txExpenseFeb]).map (·.name)
      = [monthLabel ⟨2024, 2, 15⟩, monthLabel ⟨2024, 0, 15⟩, monthLabel ⟨2024, 1, 15⟩]
    ∧ [monthLabel ⟨2024, 2, 15⟩, monthLabel ⟨2024, 0, 15⟩, monthLabel ⟨2024, 1, 15⟩]
      ≠ [monthLabel ⟨2024, 2, 15⟩, monthLabel ⟨2024, 1, 15⟩, monthLabel ⟨2024, 0, 15⟩] := by
  constructor
  · decide
  · decide

/-- C4 (counterexample): `getDashboardStats` reads the current moment from
the ambient clock (`new Date()` inside the function): the same transaction
snapshot yields different savings percentages under ambient clocks lying in
March 2024 vs April 2024. -/
theorem getDashboardStats_reads_ambient_clock :
    (getDashboardStats [txIncomeMar] nowMar2024).monthlySavingsPercentage
      ≠ (getDashboardStats [txIncomeMar] nowApr2024).monthlySavingsPercentage := by
  norm_num [getDashboardStats, txIncomeMar, nowMar2024, nowApr2024, sameCalendarMonth,
    calculateTotals, totalsStep]

/-- C4 (amended): the dashboard statistics and the budget evaluation read
the current moment from the ambient clock, and depend on it only through
its calendar month and year: two ambient clock values in the same calendar
month yield identical results on the same snapshot. -/
theorem stats_depend_only_on_clock_month (transactions : List Transaction)
    (budgets : List (String × ℚ)) (n1 n2 : JSDate)
    (hy : n1.year = n2.year) (hm : n1.month = n2.month) :
    getDashboardStats transactions n1 = getDashboardStats transactions n2
      ∧ budgetStatus transactions budgets n1 = budgetStatus transactions budgets n2 := by
  have hsame : ∀ d : JSDate, sameCalendarMonth d n1 = sameCalendarMonth d n2 := by
    intro d
    rw [sameCalendarMonth, sameCalendarMonth, hy, hm]
  constructor
  · unfold getDashboardStats
    simp only [hsame]
  · unfold budgetStatus monthSpending
    simp only [hsame]

/-- Witness for the amended C4: two different clock values inside March
2024 give the same statistics and budget status. -/
theorem stats_depend_only_on_clock_month_witness :
    getDashboardStats [txIncomeMar] nowMar2024 = getDashboardStats [txIncomeMar] ⟨2024, 2, 1⟩
      ∧ budgetStatus [txIncomeMar] [("food", 1000)] nowMar2024
        = budgetStatus [txIncomeMar] [("food", 1000)] ⟨2024, 2, 1⟩ :=
  stats_depend_only_on_clock_month [txIncomeMar] [("food", 1000)] nowMar2024 ⟨2024, 2, 1⟩ rfl rfl

/-- C8 (counterexample): evaluating budgets over the empty transaction
collection with the budget `{food: 1000}` does NOT yield the empty list. -/
theorem budgetStatus_empty_not_nil :
    budgetStatus [] [("food", 1000)] nowMar2024 ≠ [] := by
  norm_num [budgetStatus, monthSpending, budgetRowOf, objGet?, jsSort, jsSortInsert]

/-- C8 (amended): evaluating budgets over the empty collection with
`{food: 1000}` yields exactly one status row, with spent 0, percentage 0
and remaining 1000 — the category appears, it is not omitted. -/
theorem budgetStatus_empty_food (now : JSDate) :
    budgetStatus [] [("food", 1000)] now =
      [{ categoryId := "food", categoryName := "طعام", budgetAmount := 1000,
         spentAmount := 0, percentage := 0, remaining := 1000, color := "#ef4444" }] := by
  norm_num [budgetStatus, monthSpending, budgetRowOf, objGet?, getCategoryById,
    CATEGORIES_INCOME, CATEGORIES_EXPENSE, jsSort, jsSortInsert]
  decide

/-- C10 (counterexample): `setBudget` with a negative amount is a no-op, so
a pre-existing entry survives; the configuration still contains the entry
for the category, contradicting "treated as unset / removed". -/
theorem setBudget_negative_keeps_entry :
    setBudget [("food", 100)] "food" (-5) = [("food", 100)]
      ∧ objGet? "food" (setBudget [("food", 100)] "food" (-5)) = some 100 := by
  constructor
  · norm_num [setBudget]
  · norm_num [setBudget, objGet?]

/-- C10 (amended): `setBudget` removes the entry when the amount is exactly
0, rejects negative amounts as a no-op (a pre-existing entry survives),
stores positive amounts, and never touches other categories. -/
theorem setBudget_spec (budgets : List (String × ℚ)) (categoryId : String) (amount : ℚ) :
    (amount < 0 → setBudget budgets categoryId amount = budgets)
    ∧ (amount = 0 → objGet? categoryId (setBudget budgets categoryId amount) = none)
    ∧ (0 < amount → objGet? categoryId (setBudget budgets categoryId amount) = some amount)
    ∧ ∀ k, k ≠ categoryId → objGet? k (setBudget budgets categoryId amount) = objGet? k budgets := by
  refine ⟨?_, ?_, ?_, ?_⟩
  · intro h
    rw [setBudget, if_pos h]
  · intro h
    rw [setBudget, if_neg (by rw [h]; exact lt_irrefl 0), if_pos h]
    exact objGet?_objDelete_self categoryId budgets
  · intro h
    rw [setBudget, if_neg (not_lt.2 h.le), if_neg (ne_of_gt h)]
    exact objGet?_objSet_self categoryId amount budgets
  · intro k hk
    rw [setBudget]
    by_cases h1 : amount < 0
    · rw [if_pos h1]
    · rw [if_neg h1]
      by_cases h2 : amount = 0
      · rw [if_pos h2]
        exact objGet?_objDelete_ne categoryId k budgets hk
      · rw [if_neg h2]
        exact objGet?_objSet_ne categoryId k amount budgets hk

/-- Witness for the amended C10: setting a budget of 0 removes the entry. -/
theorem setBudget_spec_witness :
    objGet? "food" (setBudget [("food", 100)] "food" 0) = none :=
  (setBudget_spec [("food", 100)] "food" 0).2.1 rfl


/-! ## Budget evaluation: C5 -/

theorem filterMap_if_eq_map_filter (budgets : List (String × ℚ))
    (g : String × ℚ → BudgetStatusRow) :
    budgets.filterMap (fun b => if b.2 ≤ 0 then none else some (g b))
      = (budgets.filter (fun b => decide (0 < b.2))).map g := by
  induction budgets with
  | nil => rfl
  | cons b rest ih =>
    by_cases h : b.2 ≤ 0
    · simp [List.filterMap_cons, List.filter_cons, h, not_lt.2 h, ih]
    · simp [List.filterMap_cons, List.filter_cons, h, not_le.1 h, ih]

/-- C5: the budget evaluation emits exactly one status row per budget entry
with positive limit (ids are a permutation of those entries' keys and are
duplicate-free for duplicate-free budget keys), each row carries the
entry's limit, `spent` = that category's current-month EXPENSE total,
`percentage = spent / limit * 100`, `remaining = limit - spent`, the output
is ordered by percentage descending, and the alert list is exactly the
rows with percentage ≥ 80. -/
theorem budgetStatus_spec (transactions : List Transaction)
    (budgets : List (String × ℚ)) (now : JSDate)
    (hkeys : (budgets.map Prod.fst).Nodup) :
    ((budgetStatus transactions budgets now).map (·.categoryId)).Perm
        ((budgets.filter (fun b => decide (0 < b.2))).map Prod.fst)
    ∧ ((budgetStatus transactions budgets now).map (·.categoryId)).Nodup
    ∧ (budgetStatus transactions budgets now).Pairwise
        (fun a b => b.percentage ≤ a.percentage)
    ∧ (∀ r ∈ budgetStatus transactions budgets now,
        0 < r.budgetAmount
        ∧ (r.categoryId, r.budgetAmount) ∈ budgets
        ∧ r.spentAmount = ((transactions.filter (fun tx =>
            (tx.type == TransactionType.expense && sameCalendarMonth tx.date now)
              && tx.categoryId == r.categoryId)).map (·.amount)).sum
        ∧ r.percentage = r.spentAmount / r.budgetAmount * 100
        ∧ r.remaining = r.budgetAmount - r.spentAmount)
    ∧ (∀ r, r ∈ budgetAlerts transactions budgets now ↔
        r ∈ budgetStatus transactions budgets now ∧ 80 ≤ r.percentage) := by
  have hrows : budgets.filterMap (fun b => if b.2 ≤ 0 then none
        else some (budgetRowOf (monthSpending transactions now) b.1 b.2))
      = (budgets.filter (fun b => decide (0 < b.2))).map
          (fun b => budgetRowOf (monthSpending transactions now) b.1 b.2) :=
    filterMap_if_eq_map_filter budgets _
  have hperm : (budgetStatus transactions budgets now).Perm
      ((budgets.filter (fun b => decide (0 < b.2))).map
        (fun b => budgetRowOf (monthSpending transactions now) b.1 b.2)) := by
    simp only [budgetStatus]
    rw [hrows]
    exact jsSort_perm _ _
  have hcid : ((fun r : BudgetStatusRow => r.categoryId) ∘
      (fun b : String × ℚ => budgetRowOf (monthSpending transactions now) b.1 b.2))
        = Prod.fst :=
    funext fun b => rfl
  have hids : ((budgetStatus transactions budgets now).map (·.categoryId)).Perm
      ((budgets.filter (fun b => decide (0 < b.2))).map Prod.fst) := by
    have := hperm.map (·.categoryId)
    rwa [List.map_map, hcid] at this
  refine ⟨hids, ?_, ?_, ?_, ?_⟩
  · refine hids.nodup_iff.2 ?_
    exact hkeys.sublist ((List.filter_sublist budgets).map Prod.fst)
  · have htot : ∀ a b : BudgetStatusRow,
        b.percentage - a.percentage ≤ 0 ∨ a.percentage - b.percentage ≤ 0 := by
      intro a b
      rcases le_total a.percentage b.percentage with h | h
      · right; linarith
      · left; linarith
    have htrans : ∀ a b d : BudgetStatusRow,
        b.percentage - a.percentage ≤ 0 → d.percentage - b.percentage ≤ 0 →
          d.percentage - a.percentage ≤ 0 := by
      intro a b d h1 h2
      linarith
    have hp := jsSort_pairwise (fun a b : BudgetStatusRow => b.percentage - a.percentage)
      htot htrans (budgets.filterMap (fun b => if b.2 ≤ 0 then none
        else some (budgetRowOf (monthSpending transactions now) b.1 b.2)))
    simp only [budgetStatus]
    exact hp.imp (fun h => by linarith)
  · intro r hr
    have hmem : r ∈ (budgets.filter (fun b => decide (0 < b.2))).map
        (fun b => budgetRowOf (monthSpending transactions now) b.1 b.2) :=
      hperm.mem_iff.1 hr
    obtain ⟨b, hbf, rfl⟩ := List.mem_map.1 hmem
    obtain ⟨hbmem, hbcond⟩ := List.mem_filter.1 hbf
    have hpos : 0 < b.2 := of_decide_eq_true hbcond
    refine ⟨hpos, ?_, ?_, rfl, rfl⟩
    · exact Prod.mk.eta ▸ hbmem
    · show (objGet? b.1 (monthSpending transactions now)).getD 0 = _
      rw [monthSpending]
      rw [spendFold_get]
      rw [List.filter_filter]
      rw [List.filter_congr (fun t _ => Bool.and_comm
        (t.categoryId == b.1)
        (t.type == TransactionType.expense && sameCalendarMonth t.date now))]
      simp [objGet?]
      rfl
  · intro r
    constructor
    · intro hr
      have := (jsSort_perm _ _).mem_iff.1 hr
      obtain ⟨hs, hcond⟩ := List.mem_filter.1 this
      exact ⟨hs, of_decide_eq_true hcond⟩
    · rintro ⟨hs, hge⟩
      exact (jsSort_perm _ _).mem_iff.2 (List.mem_filter.2 ⟨hs, decide_eq_true hge⟩)

/-- Witness for C5: a single March-2024 food expense of 800 against a food
budget of 1000 yields percentage 80 and remaining 200, and the row passes
the alert filter at threshold 80. -/
theorem budgetStatus_spec_witness :
    budgetStatus [txFood800] [("food", 1000)] nowMar2024 =
        [{ categoryId := "food", categoryName := "طعام", budgetAmount := 1000,
           spentAmount := 800, percentage := 80, remaining := 200, color := "#ef4444" }]
      ∧ { categoryId := "food", categoryName := "طعام", budgetAmount := 1000,
          spentAmount := 800, percentage := 80, remaining := 200, color := "#ef4444" } ∈
        budgetAlerts [txFood800] [("food", 1000)] nowMar2024 := by
  have h := budgetStatus_spec [txFood800] [("food", 1000)] nowMar2024 (by decide)
  have hrow : budgetStatus [txFood800] [("food", 1000)] nowMar2024 =
      [{ categoryId := "food", categoryName := "طعام", budgetAmount := 1000,
         spentAmount := 800, percentage := 80, remaining := 200, color := "#ef4444" }] := by
    norm_num [budgetStatus, monthSpending, budgetRowOf, objGet?, getCategoryById,
      CATEGORIES_INCOME, CATEGORIES_EXPENSE, jsSort, jsSortInsert, spendStep, objUpsert,
      txFood800, nowMar2024, sameCalendarMonth]
    decide
  refine ⟨hrow, ?_⟩
  refine (h.2.2.2.2 _).2 ⟨?_, by norm_num⟩
  rw [hrow]
  exact List.mem_singleton.2 rfl


/-! ## Order independence: C9 -/

theorem perm_any {l1 l2 : List α} (h : l1.Perm l2) (p : α → Bool) :
    l1.any p = l2.any p := by
  cases hx : l1.any p
  · cases hy : l2.any p
    · rfl
    · rcases List.any_eq_true.1 hy with ⟨a, ha, hpa⟩
      have hcontra := List.any_eq_true.2 ⟨a, h.mem_iff.2 ha, hpa⟩
      rw [hx] at hcontra
      exact absurd hcontra (by simp)
  · rcases List.any_eq_true.1 hx with ⟨a, ha, hpa⟩
    exact (List.any_eq_true.2 ⟨a, h.mem_iff.1 ha, hpa⟩).symm

theorem find?_catrow_value (l : List (String × CatBucket)) (n : String) :
    (((l.map (fun e =>
        ({ name := e.1, value := e.2.total, color := e.2.color } : CatRow))).find?
      (fun r => r.name == n)).map (·.value)).getD 0
      = ((objGet? n l).map (fun b => b.total)).getD 0 := by
  induction l with
  | nil => rfl
  | cons e rest ih =>
    rw [List.map_cons, List.find?_cons, objGet?_cons]
    by_cases h : e.1 = n
    · simp [h]
    · have hb : (e.1 == n) = false := by simp [h]
      simpa [hb] using ih

theorem catValueAt_eq (n : String) (transactions : List Transaction) :
    catValueAt n transactions
      = ((objGet? n ((transactions.filter
            (fun t => t.type == TransactionType.expense)).foldl catStep [])).map
          (fun b => b.total)).getD 0 := by
  unfold catValueAt groupExpensesByCategory
  exact find?_catrow_value _ n

theorem monthRowAt_eq (k : String) (transactions : List Transaction) :
    monthRowAt k transactions = objGet? k (transactions.foldl monthFoldStep []) := by
  unfold monthRowAt
  rw [groupTransactionsByMonth_eq]
  exact find?_map_snd_eq_objGet? _ k (monthFold_coherent transactions [] (by simp))

/-- C9 (counterexample): swapping two same-month, same-amount expense
transactions in different categories is a permutation of the input, yet it
changes `getDashboardStats`: the largest-spending-category tie is broken by
first encounter in input order. -/
theorem aggregates_not_perm_invariant :
    ([txFood5, txHousing5] : List Transaction).Perm [txHousing5, txFood5]
      ∧ (getDashboardStats [txFood5, txHousing5] nowMar2024).largestSpendingCategory
        ≠ (getDashboardStats [txHousing5, txFood5] nowMar2024).largestSpendingCategory := by
  refine ⟨List.Perm.swap txHousing5 txFood5 [], ?_⟩
  norm_num [getDashboardStats, txFood5, txHousing5, nowMar2024, spendStep, objUpsert,
    jsSort, jsSortInsert, getCategoryById, CATEGORIES_INCOME, CATEGORIES_EXPENSE,
    sameCalendarMonth]
  decide

/-- C9 (amended): permuting the transaction collection leaves the totals,
the budget statuses, every category bucket value (looked up by name) and
every monthly bucket row (looked up by month key) unchanged; only
order-dependent tie-breaking and bucket emission order can differ. -/
theorem aggregates_perm_invariant (l1 l2 : List Transaction) (h : l1.Perm l2) :
    calculateTotals l1 = calculateTotals l2
    ∧ (∀ budgets now, budgetStatus l1 budgets now = budgetStatus l2 budgets now)
    ∧ (∀ n, catValueAt n l1 = catValueAt n l2)
    ∧ (∀ k, monthRowAt k l1 = monthRowAt k l2) := by
  have hsum : ∀ p : Transaction → Bool,
      ((l1.filter p).map (·.amount)).sum = ((l2.filter p).map (·.amount)).sum :=
    fun p => ((h.filter p).map _).sum_eq
  refine ⟨?_, ?_, ?_, ?_⟩
  · rw [calculateTotals_eq, calculateTotals_eq]
    simp only [hsum]
  · intro budgets now
    have hspent : ∀ cid, (objGet? cid (monthSpending l1 now)).getD 0
        = (objGet? cid (monthSpending l2 now)).getD 0 := by
      intro cid
      rw [monthSpending, monthSpending, spendFold_get, spendFold_get,
        List.filter_filter, List.filter_filter]
      simp only [hsum]
    have hrowfn : (fun b : String × ℚ => if b.2 ≤ 0 then none
          else some (budgetRowOf (monthSpending l1 now) b.1 b.2))
        = (fun b : String × ℚ => if b.2 ≤ 0 then none
          else some (budgetRowOf (monthSpending l2 now) b.1 b.2)) := by
      funext b
      have hrow : budgetRowOf (monthSpending l1 now) b.1 b.2
          = budgetRowOf (monthSpending l2 now) b.1 b.2 := by
        unfold budgetRowOf
        rw [hspent b.1]
      rw [hrow]
    simp only [budgetStatus]
    rw [hrowfn]
  · intro n
    rw [catValueAt_eq, catValueAt_eq, catFold_total_at, catFold_total_at,
      List.filter_filter, List.filter_filter]
    simp only [hsum]
  · intro k
    have hinc : monthIncomeSum k l1 = monthIncomeSum k l2 := hsum _
    have hexp : monthExpenseSum k l1 = monthExpenseSum k l2 := hsum _
    rw [monthRowAt_eq, monthRowAt_eq, monthFold_get, monthFold_get,
      perm_any h (fun t => monthLabel t.date == k), hinc, hexp]

/-- Witness for the amended C9 at a concrete transposition. -/
theorem aggregates_perm_invariant_witness :
    calculateTotals [txFood5, txHousing5] = calculateTotals [txHousing5, txFood5]
    ∧ (∀ budgets now, budgetStatus [txFood5, txHousing5] budgets now
        = budgetStatus [txHousing5, txFood5] budgets now)
    ∧ (∀ n, catValueAt n [txFood5, txHousing5] = catValueAt n [txHousing5, txFood5])
    ∧ (∀ k, monthRowAt k [txFood5, txHousing5] = monthRowAt k [txHousing5, txFood5]) :=
  aggregates_perm_invariant [txFood5, txHousing5] [txHousing5, txFood5]
    (List.Perm.swap txHousing5 txFood5 [])

end ExpenseManager
